import Mathlib

/-!
Verification of the scheduling decision engine of `scheduler.py`
(meeting scheduler agent).

Shallow embedding conventions:
- Python `str` values are modelled as `List Char`.
- Naive local datetimes are modelled as total minutes (`Nat`): a Python
  `datetime` d corresponds to `d.toordinal * 1440 + 60 * hour + minute`;
  `d.date()` corresponds to division by 1440 and
  `datetime.combine(day, time(h, 0))` to `day * 1440 + h * 60`.
- The external collaborators (Gemini completion, Google Calendar transport,
  SMTP) are modelled as oracles supplied in an environment record; the
  engine logic itself (slot generation, event matching, contact memory,
  JSON repair, mode dispatch) is translated from the source.
-/

namespace Scheduler

/-! ## String utilities (Python `str` operations on `List Char`) -/

/-- Python `str.isspace` characters used by `strip` and friends
(modelled by `Char.isWhitespace`). -/
def wsChar (c : Char) : Bool := c.isWhitespace

/-- Python `s.lstrip()`. -/
def lTrim (l : List Char) : List Char := l.dropWhile wsChar

/-- Python `s.rstrip()`. -/
def rTrim (l : List Char) : List Char := (l.reverse.dropWhile wsChar).reverse

/-- Python `s.strip()`. -/
def sTrim (l : List Char) : List Char := rTrim (lTrim l)

/-- Python `s.lower()` (the source only ever compares ASCII). -/
def lowerStr (l : List Char) : List Char := l.map Char.toLower

/-- Python substring test `sub in hay`. -/
def hasSub (sub : List Char) : List Char → Bool
  | [] => sub.isEmpty
  | c :: t => sub.isPrefixOf (c :: t) || hasSub sub t

/-- Python `hay.split(sep, 1)` for a non-empty separator, returning the
text before and after the first occurrence of `sep`, or `none` when `sep`
does not occur. -/
def splitFirst (sep : List Char) : List Char → Option (List Char × List Char)
  | [] => if sep.isEmpty then some ([], []) else none
  | c :: rest =>
    if sep.isPrefixOf (c :: rest) then some ([], (c :: rest).drop sep.length)
    else
      match splitFirst sep rest with
      | some (pre, post) => some (c :: pre, post)
      | none => none

/-- Python `sep in hay`. -/
def containsSeq (sep l : List Char) : Bool := (splitFirst sep l).isSome

/-- Opening curly brace character (written by code to satisfy source layout). -/
def braceOpen : Char := Char.ofNat 123

/-- Closing curly brace character. -/
def braceClose : Char := Char.ofNat 125

/-- Markdown code fence token. -/
def fence : List Char := "```".toList

/-- Characters stripped by `lstrip("json")` in `extract_json_from_text`. -/
def jsonChar (c : Char) : Bool := c == 'j' || c == 's' || c == 'o' || c == 'n'

/-- Characters stripped by `lstrip("python")` in `extract_json_from_text`. -/
def pythonChar (c : Char) : Bool :=
  c == 'p' || c == 'y' || c == 't' || c == 'h' || c == 'o' || c == 'n'

/-- The fence-stripping phase of `extract_json_from_text`
(scheduler.py lines 88-98): strip the whole text, and if it starts with a
code fence drop the opening fence, strip a potential language tag
(`lstrip("json").lstrip("python").lstrip().strip()`), then cut everything
from the closing fence on (`split` at the next fence, keep the part
before it, `strip`). -/
def cleanFenced (text0 : List Char) : List Char :=
  let text1 := sTrim text0
  if fence.isPrefixOf text1 then
    let text2 :=
      match splitFirst fence text1 with
      | some (_, rest) => rest
      | none => []
    let text3 := sTrim (lTrim ((text2.dropWhile jsonChar).dropWhile pythonChar))
    match splitFirst fence text3 with
    | some (pre, _) => sTrim pre
    | none => text3
  else text1

/-- The fallback extraction of `extract_json_from_text`
(scheduler.py lines 104-109): the substring from the first opening brace
to the last closing brace, or `[]` when Python would refuse
(`start == -1 or end == -1 or end <= start`). -/
def braceCandidate (l : List Char) : List Char :=
  let after := l.dropWhile (fun c => c != braceOpen)
  (after.reverse.dropWhile (fun c => c != braceClose)).reverse

/-- Function `extract_json_from_text` (scheduler.py lines 81-110),
parameterised by the external JSON parser `loads` (Python `json.loads` is
standard-library code, not part of this repository; `none` stands for a
raised `JSONDecodeError`, the failure the spec names
`ClassificationFormatError`). -/
def extract_json_from_text {α : Type} (loads : List Char → Option α)
    (text : List Char) : Option α :=
  let cleaned := cleanFenced text
  match loads cleaned with
  | some j => some j
  | none =>
    let cand := braceCandidate cleaned
    if cand.isEmpty then none else loads cand

/-! ## Contact memory (scheduler.py lines 117-173)

The contact table is a Python dict from normalised name to email,
modelled as an association list in which the most recent binding for a
key is the first one (`add_contact` conses, `get_email` takes the first
match, which matches dict update/lookup observationally). -/

/-- Contact table: normalised name to email. -/
abbrev Contacts : Type := List (List Char × List Char)

/-- Key normalisation used by `ContactMemory` methods:
`name.strip().lower()`. -/
def normKey (name : List Char) : List Char := lowerStr (sTrim name)

/-- Method `ContactMemory.add_contact` (lines 141-148): no-op when either
argument is empty (Python truthiness of `str`), otherwise store
`email.strip()` under the normalised name and persist. -/
def add_contact (c : Contacts) (name email : List Char) : Contacts :=
  if name.isEmpty || email.isEmpty then c
  else (normKey name, sTrim email) :: c

/-- Method `ContactMemory.get_email` (lines 150-153):
`self.contacts.get(name.strip().lower())`. -/
def get_email (c : Contacts) (name : List Char) : Option (List Char) :=
  (List.lookup (normKey name) c)

/-! ## Slot generation (scheduler.py lines 252-262 and 541-616) -/

/-- Busy interval reported by the calendar, in minutes. -/
structure Busy where
  start : Nat
  stop : Nat
deriving DecidableEq, Repr

/-- Candidate slot, in minutes; `stop` is Python `end`. -/
structure Slot where
  start : Nat
  stop : Nat
deriving DecidableEq, Repr

/-- Function `is_slot_free` (lines 252-262): the slot conflicts with a
busy period exactly when `slot_start < busy.end and slot_end >
busy.start`; returns `true` when no busy period conflicts. -/
def is_slot_free (slotStart slotEnd : Nat) (busyTimes : List Busy) : Bool :=
  busyTimes.all fun b => !(decide (slotStart < b.stop) && decide (slotEnd > b.start))

/-- Day-part table `time_blocks` (lines 575-579): morning 09:00-12:00,
afternoon 13:00-17:00, evening 17:00-20:00. -/
def time_blocks (tod : List Char) : Option (Nat × Nat) :=
  if tod = "morning".toList then some (9, 12)
  else if tod = "afternoon".toList then some (13, 17)
  else if tod = "evening".toList then some (17, 20)
  else none

/-- Loop body of `pick_candidate_slots` for one day and one day-part
(lines 586-599 plus the busy filter of line 602): the candidate starts at
the day-part's fixed start hour on that day; it is dropped when the
day-part is unknown, when it starts before `earliest_start`, ends after
`latest_end`, or (busy list non-empty) conflicts with a busy period. -/
def candidateOf (duration earliest latest : Nat) (busy : List Busy)
    (day : Nat) (tod : List Char) : Option Slot :=
  match time_blocks tod with
  | none => none
  | some (startHour, _) =>
    let cs := day * 1440 + startHour * 60
    let ce := cs + duration
    if cs < earliest then none
    else if latest < ce then none
    else if !busy.isEmpty && !is_slot_free cs ce busy then none
    else some ⟨cs, ce⟩

/-- Inner `for tod in preferred` loop of `pick_candidate_slots`
(lines 586-612): append each surviving candidate, breaking as soon as
`max_slots` slots exist. -/
def innerLoop (maxSlots : Nat) (cand : List Char → Option Slot) :
    List (List Char) → List Slot → List Slot
  | [], slots => slots
  | tod :: rest, slots =>
    match cand tod with
    | none => innerLoop maxSlots cand rest slots
    | some s =>
      let slots2 := slots ++ [s]
      if maxSlots ≤ slots2.length then slots2
      else innerLoop maxSlots cand rest slots2

/-- Outer `while current_day <= last_day and len(slots) < max_slots` loop
of `pick_candidate_slots` (lines 585-614), over the explicit list of days. -/
def dayLoop (maxSlots : Nat) (cand : Nat → List Char → Option Slot)
    (preferred : List (List Char)) : List Nat → List Slot → List Slot
  | [], slots => slots
  | d :: ds, slots =>
    if slots.length < maxSlots then
      dayLoop maxSlots cand preferred ds (innerLoop maxSlots (cand d) preferred slots)
    else slots

/-- Function `pick_candidate_slots` (lines 541-616) with the busy list
already fetched (`get_busy_times` returns `[]` when no calendar service
is available). The Python signature defaults `max_slots` to 3; callers in
this file pass 3 explicitly. Iterates calendar days from
`earliest_start.date()` to `latest_end.date()` inclusive. -/
def pick_candidate_slots (duration earliest latest : Nat)
    (preferred : List (List Char)) (busy : List Busy) (maxSlots : Nat) : List Slot :=
  let firstDay := earliest / 1440
  let lastDay := latest / 1440
  let days := (List.range (lastDay + 1 - firstDay)).map (fun i => firstDay + i)
  dayLoop maxSlots (candidateOf duration earliest latest busy) preferred days []

/-! ## Event matching (scheduler.py lines 326-411)

The Google event dicts are modelled with the fields the matcher reads.
Absent `email` / `displayName` / `organizer` entries are modelled as `[]`
(the code reads them with `.get(..., '')` / `.get('organizer', {})`).
`startRaw` stands for `event['start'].get('dateTime',
event['start'].get('date'))`; it is only displayed or handed to the
drafting prompt. -/

/-- Attendee or organizer entry of a Google calendar event. -/
structure GPerson where
  email : List Char
  displayName : List Char
deriving DecidableEq, Repr

/-- Google calendar event as consumed by `search_events`. -/
structure GEvent where
  id : List Char
  summary : List Char
  startRaw : List Char
  stopRaw : List Char
  attendees : List GPerson
  organizer : GPerson
deriving DecidableEq, Repr

/-- Matching-result entry built by `search_events` (lines 395-402): the
projected fields plus the raw event (`raw_event`). -/
structure EventSummary where
  id : List Char
  summary : List Char
  startRaw : List Char
  stopRaw : List Char
  attendees : List GPerson
  raw : GEvent
deriving DecidableEq, Repr

/-- Projection performed on each matching event (lines 395-402). -/
def toSummary (e : GEvent) : EventSummary :=
  ⟨e.id, e.summary, e.startRaw, e.stopRaw, e.attendees, e⟩

/-- Cancellation criteria object (`cancel_criteria` in the parse schema). -/
structure CancelCriteria where
  attendee_name : Option (List Char)
  date_range_start : Option Nat
  date_range_end : Option Nat
  subject_keywords : List (List Char)
deriving DecidableEq, Repr

/-- Criteria dict defaulted to `\x7b\x7d` when `cancel_criteria` is missing
(`meeting.get("cancel_criteria", \x7b\x7d)`, line 953): every `.get` then
yields the absent value. -/
def emptyCriteria : CancelCriteria := ⟨none, none, none, []⟩

/-- Attendee-name condition of `search_events` (lines 360-386):
vacuously true when the name is empty; otherwise a lower-cased substring
test against each attendee's email and display name, the event summary,
and the organizer's email and display name. -/
def attendeeCond (nameLower : List Char) (e : GEvent) : Bool :=
  if nameLower.isEmpty then true
  else
    (e.attendees.any fun a =>
      hasSub nameLower (lowerStr a.email) || hasSub nameLower (lowerStr a.displayName))
    || hasSub nameLower (lowerStr e.summary)
    || hasSub nameLower (lowerStr e.organizer.email)
    || hasSub nameLower (lowerStr e.organizer.displayName)

/-- Subject-keyword condition of `search_events` (lines 388-392):
vacuously true for an empty keyword list, otherwise any lower-cased
keyword occurring in the lower-cased summary. -/
def subjectCond (keywords : List (List Char)) (e : GEvent) : Bool :=
  if keywords.isEmpty then true
  else keywords.any fun k => hasSub (lowerStr k) (lowerStr e.summary)

/-- Combined per-event filter of `search_events` (line 394), with the
criteria read as in lines 356-357 (`criteria.get("attendee_name") or ""`,
lower-cased; `criteria.get("subject_keywords") or []`). -/
def eventMatches (crit : CancelCriteria) (e : GEvent) : Bool :=
  attendeeCond (lowerStr (crit.attendee_name.getD [])) e
    && subjectCond crit.subject_keywords e

/-- Function `search_events` (lines 326-411) after the provider returned
`events` for the query window: filter by the criteria, projecting each
match (the provider-side time filtering and chronological ordering are
part of the external query, lines 344-350). -/
def search_events (crit : CancelCriteria) (events : List GEvent) : List EventSummary :=
  (events.filter (eventMatches crit)).map toSummary

/-! ## Orchestrator (`run_scheduler_agent`, scheduler.py lines 911-1165) -/

/-- Attendee entry of the parsed meeting request. -/
structure MAttendee where
  name : Option (List Char)
  email : Option (List Char)
deriving DecidableEq, Repr

/-- Parsed meeting request as used by the orchestrator. Fields the code
reads with a plain `meeting[...]` lookup (always present per the prompt
schema) are non-optional; fields read with `.get` are `Option`.
`exact_time = none` covers JSON `null`, a missing key and the empty
string (all falsy for `if not exact_time_str`). -/
structure Meeting where
  subject : List Char
  attendees : List MAttendee
  duration_minutes : Option Nat
  scheduling_mode : Option (List Char)
  exact_time : Option Nat
  earliest_start : Nat
  latest_end : Nat
  preferred_times_of_day : Option (List (List Char))
  cancel_criteria : Option CancelCriteria
deriving DecidableEq, Repr

/-- Mode dispatch value: `meeting.get("scheduling_mode", "proposal")`
(line 948). -/
def schedulingModeOf (m : Meeting) : List Char :=
  m.scheduling_mode.getD ("proposal".toList)

/-- Duration with default: `int(meeting.get("duration_minutes", 30))`
(lines 555 and 1097). -/
def meetingDuration (m : Meeting) : Nat := m.duration_minutes.getD 30

/-- Day-part preference with default:
`meeting.get("preferred_times_of_day") or ["morning", "afternoon"]`
(line 560; an empty list is falsy and also takes the default). -/
def preferredOf (m : Meeting) : List (List Char) :=
  let p := m.preferred_times_of_day.getD []
  if p.isEmpty then ["morning".toList, "afternoon".toList] else p

/-- Recipient emails of a scheduling request:
`[a["email"] for a in meeting.get("attendees", []) if a.get("email")]`
(line 1082; empty strings are falsy and skipped). -/
def recipientsOf (m : Meeting) : List (List Char) :=
  m.attendees.filterMap fun a =>
    match a.email with
    | some e => if e.isEmpty then none else some e
    | none => none

/-- Recipient emails of a cancel notification:
`[att['email'] for att in selected_event['attendees'] if att.get('email')]`
(line 1063). -/
def cancelRecipients (ev : EventSummary) : List (List Char) :=
  ev.attendees.filterMap fun a => if a.email.isEmpty then none else some a.email

/-- Oracle for the calendar transport of one run: the busy intervals
`get_busy_times` reports, the events the cancel search query returns, and
whether `create_calendar_event` / `delete_calendar_event` succeed. -/
structure CalendarService where
  busy : List Busy
  events : List GEvent
  createOk : Bool
  deleteOk : Bool
deriving DecidableEq, Repr

/-- Environment of one `run_scheduler_agent` invocation: the optional
calendar service, the `auto_send` flag, the scripted interactive answers
(each disambiguation input is `none` for `q` or `some i` for a number;
the confirm fields answer the `[y/N]` prompts consulted only when
`auto_send` is false) and the wall clock for the default cancel window. -/
structure Env where
  calendar : Option CalendarService
  autoSend : Bool
  selections : List (Option Nat)
  confirmDelete : Bool
  confirmCancelSend : Bool
  confirmCreate : Bool
  confirmProposalSend : Bool
  now : Nat
deriving DecidableEq, Repr

/-- Terminal outcomes of `run_scheduler_agent`, one per `return` path of
lines 911-1165 (plus `selectionStuck` for an interactive script that ran
out, where the Python loop would keep re-prompting). -/
inductive Outcome where
  | cancelProviderUnavailable
  | cancelNoMatch
  | cancelSelectionQuit
  | selectionStuck
  | cancelNotConfirmed
  | cancelDeleteFailed
  | cancelDoneNoRecipients
  | cancelEmailDeclined
  | cancelDone
  | noRecipients
  | directProviderUnavailable
  | directDeclined
  | directCreateFailed
  | directDone
  | proposalDeclined
  | proposalDone (slots : List Slot)
deriving DecidableEq, Repr

/-- Email handed to `send_email_smtp` (body text comes from the external
drafting model and is not modelled). -/
structure Email where
  recipients : List (List Char)
  subject : List Char
deriving DecidableEq, Repr

/-- Calendar event handed to `create_calendar_event` (lines 265-323). -/
structure CreatedEvent where
  subject : List Char
  start : Nat
  stop : Nat
  attendeeEmails : List (List Char)
deriving DecidableEq, Repr

/-- Observable result of one run: terminal outcome, calendar and mail
side effects, the contact table after attendee learning, and `degraded`
mirroring the start-up console warning that no calendar is available
(lines 918-926). -/
structure RunResult where
  outcome : Outcome
  created : List CreatedEvent
  deleted : List (List Char)
  emails : List Email
  contactsAfter : Contacts
  degraded : Bool
deriving DecidableEq, Repr

/-- Attendee learning pass (lines 934-945): for each attendee with both
name and email, store the contact when it is new or its email changed
(`add_contact` in either branch; storing an identical email again is
observationally the same, so the guard is kept as in the source). -/
def learnContacts (c0 : Contacts) (attendees : List MAttendee) : Contacts :=
  attendees.foldl
    (fun c a =>
      match a.name, a.email with
      | some n, some e =>
        if n.isEmpty || e.isEmpty then c
        else
          match get_email c n with
          | none => add_contact c n e
          | some existing => if existing = e then c else add_contact c n e
      | _, _ => c)
    c0

/-- Disambiguation loop of the cancel flow (lines 1010-1023) run against
the scripted inputs: `none` inputs answer `q`, numeric inputs are
accepted when within `1..len(matching_events)` and re-prompt otherwise;
an exhausted script is `none` (the Python loop would block forever). -/
def selectFrom (events : List EventSummary) : List (Option Nat) → Option (Option EventSummary)
  | [] => none
  | none :: _ => some none
  | some i :: rest =>
    if i = 0 then selectFrom events rest
    else
      match events[i - 1]? with
      | some e => some (some e)
      | none => selectFrom events rest

/-- Cancel flow of `run_scheduler_agent` (lines 952-1079). -/
def runCancel (m : Meeting) (env : Env) (contacts1 : Contacts) : RunResult :=
  let degraded := env.calendar.isNone
  match env.calendar with
  | none => ⟨.cancelProviderUnavailable, [], [], [], contacts1, degraded⟩
  | some cal =>
    let crit := m.cancel_criteria.getD emptyCriteria
    let matching := search_events crit cal.events
    match matching with
    | [] => ⟨.cancelNoMatch, [], [], [], contacts1, degraded⟩
    | e :: rest =>
      let sel :=
        if rest.isEmpty then some (some e)
        else selectFrom matching env.selections
      match sel with
      | none => ⟨.selectionStuck, [], [], [], contacts1, degraded⟩
      | some none => ⟨.cancelSelectionQuit, [], [], [], contacts1, degraded⟩
      | some (some ev) =>
        if !env.autoSend && !env.confirmDelete then
          ⟨.cancelNotConfirmed, [], [], [], contacts1, degraded⟩
        else if !cal.deleteOk then
          ⟨.cancelDeleteFailed, [], [], [], contacts1, degraded⟩
        else
          let recips := cancelRecipients ev
          if recips.isEmpty then
            ⟨.cancelDoneNoRecipients, [], [ev.id], [], contacts1, degraded⟩
          else if !env.autoSend && !env.confirmCancelSend then
            ⟨.cancelEmailDeclined, [], [ev.id], [], contacts1, degraded⟩
          else
            ⟨.cancelDone, [], [ev.id],
              [⟨recips, "Cancelled: ".toList ++ ev.summary⟩], contacts1, degraded⟩

/-- Proposal flow of `run_scheduler_agent` (lines 1144-1165), reached
either with `scheduling_mode = "proposal"`, with an unknown mode, or by
the direct-mode fallback. `pick_candidate_slots` is called with the
default `max_slots = 3` and the busy times fetched from the calendar
(`[]` when the service is missing). -/
def runProposal (m : Meeting) (env : Env) (contacts1 : Contacts)
    (recipients : List (List Char)) : RunResult :=
  let degraded := env.calendar.isNone
  let busy := match env.calendar with
    | none => []
    | some cal => cal.busy
  let slots := pick_candidate_slots (meetingDuration m) m.earliest_start
    m.latest_end (preferredOf m) busy 3
  if !env.autoSend && !env.confirmProposalSend then
    ⟨.proposalDeclined, [], [], [], contacts1, degraded⟩
  else
    ⟨.proposalDone slots, [], [], [⟨recipients, m.subject⟩], contacts1, degraded⟩

/-- Direct flow of `run_scheduler_agent` for a present `exact_time`
(lines 1094-1142): compute the end time with the default duration,
require the calendar service, gate on confirmation when `auto_send` is
false, create the event and send the confirmation email. -/
def runDirect (m : Meeting) (env : Env) (contacts1 : Contacts)
    (recipients : List (List Char)) (exact : Nat) : RunResult :=
  let degraded := env.calendar.isNone
  let dur := meetingDuration m
  let stop := exact + dur
  match env.calendar with
  | none => ⟨.directProviderUnavailable, [], [], [], contacts1, degraded⟩
  | some cal =>
    if !env.autoSend && !env.confirmCreate then
      ⟨.directDeclined, [], [], [], contacts1, degraded⟩
    else if !cal.createOk then
      ⟨.directCreateFailed, [], [], [], contacts1, degraded⟩
    else
      ⟨.directDone,
        [⟨m.subject, exact, stop, recipientsOf m⟩], [],
        [⟨recipients, m.subject⟩], contacts1, degraded⟩

/-- Function `run_scheduler_agent` (lines 911-1165): learn contacts from
the parsed request, dispatch on `scheduling_mode` (cancel first), bail
out of scheduling modes with no resolvable recipient, fall back from
direct to proposal when `exact_time` is absent. -/
def run_scheduler_agent (m : Meeting) (env : Env) (contacts0 : Contacts) : RunResult :=
  let contacts1 := learnContacts contacts0 m.attendees
  let mode := schedulingModeOf m
  if mode = "cancel".toList then runCancel m env contacts1
  else
    let recipients := recipientsOf m
    if recipients.isEmpty && mode ≠ "cancel".toList then
      ⟨.noRecipients, [], [], [], contacts1, env.calendar.isNone⟩
    else if mode = "direct".toList then
      match m.exact_time with
      | none => runProposal m env contacts1 recipients
      | some t => runDirect m env contacts1 recipients t
    else runProposal m env contacts1 recipients

/-- Full ordered candidate enumeration of `pick_candidate_slots`: all
surviving candidates, days ascending, day-parts in caller order. -/
def allCandidates (duration earliest latest : Nat) (preferred : List (List Char))
    (busy : List Busy) : List Slot :=
  ((List.range (latest / 1440 + 1 - earliest / 1440)).map
      (fun i => earliest / 1440 + i)).flatMap
    fun d => preferred.filterMap (candidateOf duration earliest latest busy d)

/-- Calendar event used by the C5 witness: one attendee with an email. -/
def wEvent1 : GEvent :=
  ⟨"id1".toList, "Sync with Bob".toList, [], [],
    [⟨"bob@x.com".toList, "Bob".toList⟩], ⟨[], []⟩⟩

/-- Calendar event used by the C5 witness: one attendee without email. -/
def wEvent2 : GEvent :=
  ⟨"id2".toList, "Sync with Bob".toList, [], [], [⟨[], "Bob".toList⟩], ⟨[], []⟩⟩

/-- Cancel request used by the C5 witness. -/
def wCancelMeeting : Meeting :=
  ⟨"x".toList, [], some 30, some ("cancel".toList), none, 0, 0, none,
    some ⟨some ("bob".toList), none, none, []⟩⟩

/-- Erasure of the attendee and organizer fields of an event, used to
state that keyword-only matching does not depend on them. -/
def stripAttendeeFields (e : GEvent) : GEvent :=
  { e with attendees := [], organizer := ⟨[], []⟩ }

/-- Toy parser used to instantiate the JSON-repair statements at a
concrete input: accepts exactly one JSON text. -/
def wLoads : List Char → Option Nat := fun l =>
  if l = ("\x7b\"a\":1\x7d").toList then some 1 else none

/-! ## Properties of the slot generator -/

/-- The inner day-part loop appends, in order, the surviving candidates of
the day until `max_slots` slots exist. -/
lemma innerLoop_eq (maxSlots : Nat) (cand : List Char → Option Slot) :
    ∀ (tods : List (List Char)) (slots : List Slot),
      slots.length < maxSlots →
      innerLoop maxSlots cand tods slots =
        slots ++ (tods.filterMap cand).take (maxSlots - slots.length)
  | [], slots, _ => by simp [innerLoop]
  | tod :: rest, slots, h => by
    rw [innerLoop]
    cases hc : cand tod with
    | none =>
      rw [List.filterMap_cons_none hc]
      exact innerLoop_eq maxSlots cand rest slots h
    | some s =>
      rw [List.filterMap_cons_some hc]
      simp only [List.length_append, List.length_singleton]
      by_cases hfull : maxSlots ≤ slots.length + 1
      · rw [if_pos hfull]
        have h1 : maxSlots - slots.length = 1 := by omega
        rw [h1, List.take_succ_cons, List.take_zero]
      · rw [if_neg hfull]
        have ih := innerLoop_eq maxSlots cand rest (slots ++ [s]) (by simp; omega)
        rw [ih]
        have h2 : maxSlots - slots.length = (maxSlots - (slots.length + 1)) + 1 := by
          omega
        simp only [List.length_append, List.length_singleton, h2,
          List.take_succ_cons, List.append_assoc, List.singleton_append]

/-- The outer day loop appends, in order, the surviving candidates of the
remaining days until `max_slots` slots exist. -/
lemma dayLoop_eq (maxSlots : Nat) (cand : Nat → List Char → Option Slot)
    (preferred : List (List Char)) :
    ∀ (ds : List Nat) (slots : List Slot),
      slots.length ≤ maxSlots →
      dayLoop maxSlots cand preferred ds slots =
        slots ++ (ds.flatMap fun d => preferred.filterMap (cand d)).take
          (maxSlots - slots.length)
  | [], slots, _ => by simp [dayLoop]
  | d :: ds, slots, h => by
    rw [dayLoop]
    by_cases hlt : slots.length < maxSlots
    · rw [if_pos hlt, innerLoop_eq maxSlots (cand d) preferred slots hlt]
      have hlen : (slots ++ (preferred.filterMap (cand d)).take
          (maxSlots - slots.length)).length ≤ maxSlots := by
        simp [List.length_take]
        omega
      rw [dayLoop_eq maxSlots cand preferred ds _ hlen]
      rw [List.flatMap_cons, List.take_append_eq_append_take]
      have harith : maxSlots -
          (slots ++ (preferred.filterMap (cand d)).take (maxSlots - slots.length)).length
          = maxSlots - slots.length - (preferred.filterMap (cand d)).length := by
        simp [List.length_take]
        omega
      rw [harith, List.append_assoc]
    · rw [if_neg hlt]
      have : maxSlots - slots.length = 0 := by omega
      simp [this]

/-- Characterisation of `pick_candidate_slots` as a prefix of the full
ordered candidate enumeration. -/
lemma pick_candidate_slots_eq (duration earliest latest : Nat)
    (preferred : List (List Char)) (busy : List Busy) (maxSlots : Nat) :
    pick_candidate_slots duration earliest latest preferred busy maxSlots =
      (allCandidates duration earliest latest preferred busy).take maxSlots := by
  unfold pick_candidate_slots allCandidates
  rw [dayLoop_eq maxSlots _ preferred _ [] (by simp)]
  simp

/-- Inversion of the per-candidate filter: a produced slot records the
day-part's fixed start hour on the given day, lies in the window, lasts
exactly `duration`, and conflicts with no busy interval. -/
lemma candidateOf_eq_some {duration earliest latest : Nat} {busy : List Busy}
    {day : Nat} {tod : List Char} {s : Slot}
    (h : candidateOf duration earliest latest busy day tod = some s) :
    ∃ hs he, time_blocks tod = some (hs, he) ∧
      s.start = day * 1440 + hs * 60 ∧ s.stop = s.start + duration ∧
      earliest ≤ s.start ∧ s.stop ≤ latest ∧
      ∀ b ∈ busy, ¬(s.start < b.stop ∧ b.start < s.stop) := by
  unfold candidateOf at h
  cases htb : time_blocks tod with
  | none => rw [htb] at h; exact absurd h (by simp)
  | some p =>
    obtain ⟨hs, he⟩ := p
    rw [htb] at h
    simp only at h
    split_ifs at h with h1 h2 h3
    injection h with hx
    subst hx
    refine ⟨hs, he, rfl, rfl, rfl, by dsimp only; omega, by dsimp only; omega, ?_⟩
    intro b hb hcon
    obtain ⟨hc1, hc2⟩ := hcon
    dsimp only at hc1 hc2
    have hne : busy.isEmpty = false := by
      cases busy
      · cases hb
      · rfl
    have hfree : is_slot_free (day * 1440 + hs * 60)
        (day * 1440 + hs * 60 + duration) busy = true := by
      by_contra hnf
      rw [Bool.not_eq_true] at hnf
      exact h3 (by rw [hne, hnf]; rfl)
    rw [is_slot_free, List.all_eq_true] at hfree
    have hb2 := hfree b hb
    simp only [Bool.not_eq_true', Bool.and_eq_false_iff,
      decide_eq_false_iff_not] at hb2
    rcases hb2 with h4 | h4 <;> omega

/-- Hour bound of the day-part table. -/
lemma time_blocks_hour {tod : List Char} {hs he : Nat}
    (h : time_blocks tod = some (hs, he)) : hs = 9 ∨ hs = 13 ∨ hs = 17 := by
  unfold time_blocks at h
  split_ifs at h <;> simp_all

/-- Membership in a produced day-part filterMap pins down the calendar
day of the slot. -/
lemma day_of_candidate {duration earliest latest : Nat} {busy : List Busy}
    {day : Nat} {tod : List Char} {s : Slot}
    (h : candidateOf duration earliest latest busy day tod = some s) :
    s.start / 1440 = day ∧ ∃ hs he, time_blocks tod = some (hs, he) ∧
      s.start % 1440 = hs * 60 := by
  obtain ⟨hs, he, htb, hstart, -, -, -, -⟩ := candidateOf_eq_some h
  have hb := time_blocks_hour htb
  constructor
  · rw [hstart]; omega
  · exact ⟨hs, he, htb, by rw [hstart]; omega⟩

/-- Every slot of the output comes from some day and some preferred
day-part. -/
lemma mem_pick_candidate_slots {duration earliest latest : Nat}
    {preferred : List (List Char)} {busy : List Busy} {maxSlots : Nat} {s : Slot}
    (h : s ∈ pick_candidate_slots duration earliest latest preferred busy maxSlots) :
    ∃ day tod, tod ∈ preferred ∧
      candidateOf duration earliest latest busy day tod = some s := by
  rw [pick_candidate_slots_eq] at h
  have h2 := List.mem_of_mem_take h
  unfold allCandidates at h2
  rw [List.mem_flatMap] at h2
  obtain ⟨d, -, hmem⟩ := h2
  rw [List.mem_filterMap] at hmem
  obtain ⟨tod, htod, hc⟩ := hmem
  exact ⟨d, tod, htod, hc⟩

/-- Concatenating blocks of strictly ascending days yields a list whose
slots have non-decreasing calendar days. -/
lemma pairwise_day_flatMap {days : List Nat} {f : Nat → List Slot}
    (hd : days.Pairwise (· < ·))
    (hf : ∀ d, ∀ s ∈ f d, s.start / 1440 = d) :
    (days.flatMap f).Pairwise (fun s t => s.start / 1440 ≤ t.start / 1440) := by
  induction days with
  | nil => simp
  | cons d ds ih =>
    rw [List.flatMap_cons, List.pairwise_append]
    refine ⟨?_, ih (List.Pairwise.of_cons hd), ?_⟩
    · refine List.pairwise_of_forall_mem_list fun x hx y hy => ?_
      rw [hf d x hx, hf d y hy]
    · intro x hx y hy
      rw [List.mem_flatMap] at hy
      obtain ⟨d2, hd2, hyf⟩ := hy
      rw [hf d x hx, hf d2 y hyf]
      exact le_of_lt ((List.pairwise_cons.mp hd).1 d2 hd2)

/-- Restricting the day-block concatenation to a single day yields that
day's block (or nothing). -/
lemma filter_flatMap_day {days : List Nat} {f : Nat → List Slot} {d : Nat}
    (hd : days.Pairwise (· < ·))
    (hf : ∀ d2, ∀ s ∈ f d2, s.start / 1440 = d2) :
    (days.flatMap f).filter (fun s => s.start / 1440 == d) =
      if d ∈ days then f d else [] := by
  induction days with
  | nil => simp
  | cons d1 ds ih =>
    rw [List.flatMap_cons, List.filter_append, ih (List.Pairwise.of_cons hd)]
    by_cases hdd : d1 = d
    · subst hdd
      have hself : (f d1).filter (fun s => s.start / 1440 == d1) = f d1 :=
        List.filter_eq_self.mpr fun a ha => by simp [hf d1 a ha]
      have hnotin : d1 ∉ ds := fun hmem =>
        lt_irrefl d1 ((List.pairwise_cons.mp hd).1 d1 hmem)
      simp [hself, hnotin]
    · have hnone : (f d1).filter (fun s => s.start / 1440 == d) = [] :=
        List.filter_eq_nil_iff.mpr fun a ha => by simp [hf d1 a ha, hdd]
      have hiff : (d ∈ d1 :: ds) ↔ (d ∈ ds) := by
        constructor
        · intro hm
          rcases List.mem_cons.mp hm with hm | hm
          · exact absurd hm.symm hdd
          · exact hm
        · exact fun hm => List.mem_cons_of_mem d1 hm
      rw [hnone, List.nil_append]
      exact if_congr hiff.symm rfl rfl

/-- A filterMap through a more restrictive partial function, composed with
a projection, is a sublist of the filterMap through the laxer one. -/
lemma filterMap_map_sublist {α β γ : Type} (f : α → Option β) (g : α → Option γ)
    (h : β → γ) (H : ∀ a b, f a = some b → g a = some (h b)) :
    ∀ l : List α, ((l.filterMap f).map h).Sublist (l.filterMap g)
  | [] => by simp
  | a :: t => by
    cases hf : f a with
    | none =>
      rw [List.filterMap_cons_none hf]
      cases hg : g a with
      | none =>
        rw [List.filterMap_cons_none hg]
        exact filterMap_map_sublist f g h H t
      | some c =>
        rw [List.filterMap_cons_some hg]
        exact (filterMap_map_sublist f g h H t).cons c
    | some b =>
      rw [List.filterMap_cons_some hf, List.filterMap_cons_some (H a b hf),
        List.map_cons]
      exact (filterMap_map_sublist f g h H t).cons₂ (h b)

/-- The ascending day list scanned by `pick_candidate_slots`. -/
lemma days_pairwise (firstDay n : Nat) :
    ((List.range n).map (fun i => firstDay + i)).Pairwise (· < ·) := by
  rw [List.pairwise_map]
  exact (List.pairwise_lt_range n).imp (by omega)

/-- C1: for every window, duration, day-part list, busy list and
`max_slots`, `pick_candidate_slots` returns at most `max_slots` slots; every
slot starts at or after `earliest_start`, ends at or before `latest_end`,
and lasts exactly `duration`; no slot overlaps a busy interval; every slot
starts at the fixed start hour of one of the caller's day-parts (morning
09:00, afternoon 13:00, evening 17:00); the output is ordered by ascending
calendar day, and within one day the sequence of slot start hours follows
the caller-supplied day-part order. -/
theorem c1_slot_generator (duration earliest latest : Nat)
    (preferred : List (List Char)) (busy : List Busy) (maxSlots : Nat) :
    (pick_candidate_slots duration earliest latest preferred busy maxSlots).length
        ≤ maxSlots ∧
    (∀ s ∈ pick_candidate_slots duration earliest latest preferred busy maxSlots,
      earliest ≤ s.start ∧ s.stop ≤ latest ∧ s.stop = s.start + duration) ∧
    (∀ s ∈ pick_candidate_slots duration earliest latest preferred busy maxSlots,
      ∀ b ∈ busy, ¬(s.start < b.stop ∧ b.start < s.stop)) ∧
    (∀ s ∈ pick_candidate_slots duration earliest latest preferred busy maxSlots,
      ∃ tod hs he, tod ∈ preferred ∧ time_blocks tod = some (hs, he) ∧
        s.start % 1440 = hs * 60) ∧
    (pick_candidate_slots duration earliest latest preferred busy maxSlots).Pairwise
      (fun s t => s.start / 1440 ≤ t.start / 1440) ∧
    (∀ d : Nat,
      (((pick_candidate_slots duration earliest latest preferred busy
            maxSlots).filter (fun s => s.start / 1440 == d)).map
          (fun s => s.start % 1440)).Sublist
        (preferred.filterMap fun tod => (time_blocks tod).map fun p => p.1 * 60)) := by
  have hmem : ∀ {s : Slot},
      s ∈ pick_candidate_slots duration earliest latest preferred busy maxSlots →
      ∃ day tod, tod ∈ preferred ∧
        candidateOf duration earliest latest busy day tod = some s :=
    fun h => mem_pick_candidate_slots h
  refine ⟨?_, ?_, ?_, ?_, ?_, ?_⟩
  · rw [pick_candidate_slots_eq]
    simp
  · intro s hs
    obtain ⟨day, tod, -, hc⟩ := hmem hs
    obtain ⟨-, -, -, -, h2, h3, h4, -⟩ := candidateOf_eq_some hc
    exact ⟨h3, h4, h2⟩
  · intro s hs
    obtain ⟨day, tod, -, hc⟩ := hmem hs
    obtain ⟨-, -, -, -, -, -, -, h5⟩ := candidateOf_eq_some hc
    exact h5
  · intro s hs
    obtain ⟨day, tod, htod, hc⟩ := hmem hs
    obtain ⟨-, ⟨hh, hhe, htb, hmod⟩⟩ := day_of_candidate hc
    exact ⟨tod, hh, hhe, htod, htb, hmod⟩
  · rw [pick_candidate_slots_eq]
    refine List.Pairwise.sublist (List.take_sublist _ _) ?_
    exact pairwise_day_flatMap (days_pairwise _ _)
      (fun d s hsd => by
        obtain ⟨tod, -, hc⟩ := List.mem_filterMap.mp hsd
        exact (day_of_candidate hc).1)
  · intro d
    rw [pick_candidate_slots_eq]
    refine List.Sublist.trans (List.Sublist.map _ (List.Sublist.filter _
      (List.take_sublist _ _))) ?_
    unfold allCandidates
    rw [filter_flatMap_day (days_pairwise _ _)
      (fun d2 s hsd => by
        obtain ⟨tod, -, hc⟩ := List.mem_filterMap.mp hsd
        exact (day_of_candidate hc).1)]
    by_cases hdin : d ∈ (List.range (latest / 1440 + 1 - earliest / 1440)).map
        (fun i => earliest / 1440 + i)
    · rw [if_pos hdin]
      refine filterMap_map_sublist _ _ _ ?_ preferred
      intro tod s hc
      obtain ⟨-, hh, hhe, htb, hmod⟩ := day_of_candidate hc
      simp [htb, hmod]
    · rw [if_neg hdin]
      simp

/-- Witness for C1 at a concrete input: window day 0 08:00 to day 4 17:00,
30-minute duration, mornings only, one busy interval 10:00-11:00 on day 0
(which blocks nothing, since morning slots run 09:00-09:30); the slot
09:00-09:30 of day 1 is in the output and satisfies the guarantees. -/
theorem c1_slot_generator_witness :
    ((⟨1980, 2010⟩ : Slot) ∈
        pick_candidate_slots 30 480 6780 ["morning".toList] [⟨600, 660⟩] 3) ∧
    (480 ≤ (1980 : Nat) ∧ (2010 : Nat) ≤ 6780 ∧ (2010 : Nat) = 1980 + 30) ∧
    ¬((1980 : Nat) < (660 : Nat) ∧ (600 : Nat) < (2010 : Nat)) := by
  have h := c1_slot_generator 30 480 6780 ["morning".toList] [⟨600, 660⟩] 3
  refine ⟨by decide, ?_, ?_⟩
  · exact h.2.1 ⟨1980, 2010⟩ (by decide)
  · exact h.2.2.1 ⟨1980, 2010⟩ (by decide) ⟨600, 660⟩ (by decide)

/-- C7: the busy-overlap test of `is_slot_free` is symmetric in the two
intervals, uses half-open semantics (touching intervals do not conflict),
and a slot conflicts with a busy interval exactly when
`candidate.start < busy.end` and `candidate.end > busy.start`. -/
theorem c7_overlap_test (a b c d : Nat) :
    (is_slot_free a b [⟨c, d⟩] = false ↔ a < d ∧ c < b) ∧
    is_slot_free a b [⟨c, d⟩] = is_slot_free c d [⟨a, b⟩] ∧
    (b = c → is_slot_free a b [⟨c, d⟩] = true) ∧
    (d = a → is_slot_free a b [⟨c, d⟩] = true) := by
  refine ⟨?_, ?_, ?_, ?_⟩
  · simp [is_slot_free]
  · simp only [is_slot_free, List.all_cons, List.all_nil, Bool.and_true]
    simp only [Bool.not_and]
    exact Bool.or_comm _ _
  · intro h
    subst h
    simp [is_slot_free]
  · intro h
    subst h
    simp [is_slot_free]

/-- Witness for C7: slot 09:00-10:00 against busy 10:00-11:00 (touching)
is judged free. -/
theorem c7_overlap_test_witness :
    is_slot_free 540 600 [⟨600, 660⟩] = true :=
  (c7_overlap_test 540 600 600 660).2.2.1 rfl

/-- C6 counterexample: `add_contact` stores `email.strip()` (scheduler.py
line 147), so an email with surrounding whitespace is not returned
verbatim by the following lookup: upserting `"Bob" -> " x@y "` and looking
up `"bob"` yields `"x@y"`, not `" x@y "`. -/
theorem c6_contact_memory_counterexample :
    ¬(get_email (add_contact [] ("Bob".toList) (" x@y ".toList)) ("bob".toList)
        = some (" x@y ".toList)) := by
  decide

/-- C6 (amended): for every non-empty name and non-empty email,
`add_contact` followed by `get_email` on any name differing only in letter
casing or leading/trailing whitespace (same normalised key) returns the
email stripped of leading/trailing whitespace — hence the email itself
whenever it carries none — and `add_contact` with an empty name or an
empty email leaves the contact table entirely unchanged. -/
theorem c6_contact_memory (c : Contacts) (name email nameV : List Char)
    (hn : name ≠ []) (he : email ≠ []) (hv : normKey nameV = normKey name) :
    get_email (add_contact c name email) nameV = some (sTrim email) ∧
    add_contact c [] email = c ∧
    add_contact c name [] = c := by
  refine ⟨?_, by simp [add_contact], by simp [add_contact]⟩
  rw [add_contact, if_neg (by simp [hn, he])]
  rw [get_email, hv]
  simp [List.lookup]

/-- Witness for C6 at a concrete input: name `"Bob"`, email `"x@y"`,
lookup under `" BOB "`. -/
theorem c6_contact_memory_witness :
    get_email (add_contact [] ("Bob".toList) ("x@y".toList)) (" BOB ".toList)
      = some (sTrim ("x@y".toList)) ∧
    add_contact ([("bob".toList, "x@y".toList)]) [] ("z@w".toList)
      = [("bob".toList, "x@y".toList)] := by
  have h := c6_contact_memory [] ("Bob".toList) ("x@y".toList) (" BOB ".toList)
    (by decide) (by decide) (by decide)
  refine ⟨h.1, ?_⟩
  exact (c6_contact_memory [("bob".toList, "x@y".toList)] ("Bob".toList)
    ("z@w".toList) ("Bob".toList) (by decide) (by decide) rfl).2.1

/-- C10: when `duration_minutes` is absent the engine defaults it to 30
minutes — every generated slot ends 30 minutes after it starts, and the
direct-mode booking computes `end = exact_time + 30` — instead of
rejecting the request. -/
theorem c10_duration_default (m : Meeting) (env : Env) (contacts0 : Contacts)
    (cal : CalendarService) (t : Nat)
    (hd : m.duration_minutes = none) :
    meetingDuration m = 30 ∧
    (∀ busy : List Busy, ∀ earliest latest : Nat, ∀ maxSlots : Nat,
      ∀ s ∈ pick_candidate_slots (meetingDuration m) earliest latest
        (preferredOf m) busy maxSlots, s.stop = s.start + 30) ∧
    (schedulingModeOf m = "direct".toList → m.exact_time = some t →
      env.calendar = some cal → cal.createOk = true →
      recipientsOf m ≠ [] → env.autoSend = true →
      (run_scheduler_agent m env contacts0).outcome = .directDone ∧
      (run_scheduler_agent m env contacts0).created =
        [⟨m.subject, t, t + 30, recipientsOf m⟩]) := by
  have h30 : meetingDuration m = 30 := by rw [meetingDuration, hd]; rfl
  refine ⟨h30, ?_, ?_⟩
  · intro busy earliest latest maxSlots s hs
    obtain ⟨day, tod, -, hc⟩ := mem_pick_candidate_slots hs
    obtain ⟨-, -, -, -, hstop, -, -, -⟩ := candidateOf_eq_some hc
    rw [hstop, h30]
  · intro hmode hex hcal hok hr ha
    rw [run_scheduler_agent]
    simp only [hmode]
    rw [if_neg (by decide)]
    rw [if_neg (by simp [List.isEmpty_iff, hr])]
    simp only [if_true]
    rw [hex]
    simp [runDirect, hcal, ha, hok, h30]

/-- Witness for C10: concrete direct-mode request without
`duration_minutes` books a 30-minute event. -/
theorem c10_duration_default_witness :
    (run_scheduler_agent
        ⟨"Sync".toList, [⟨none, some ("a@b.c".toList)⟩], none,
          some ("direct".toList), some 600, 0, 6780, none, none⟩
        ⟨some ⟨[], [], true, true⟩, true, [], true, true, true, true, 0⟩
        []).created =
      [⟨"Sync".toList, 600, 600 + 30, ["a@b.c".toList]⟩] := by
  have h := c10_duration_default
    ⟨"Sync".toList, [⟨none, some ("a@b.c".toList)⟩], none,
      some ("direct".toList), some 600, 0, 6780, none, none⟩
    ⟨some ⟨[], [], true, true⟩, true, [], true, true, true, true, 0⟩
    [] ⟨[], [], true, true⟩ 600 rfl
  have h2 := (h.2.2 (by decide) rfl rfl rfl (by decide) rfl).2
  rw [h2]
  rfl

/-- Dispatch lemma: every non-cancel request whose mode is not an
exact-time direct booking ends in the shared no-recipients check followed
by the proposal flow. -/
lemma run_eq_proposal (m : Meeting) (env : Env) (contacts0 : Contacts)
    (hmode : schedulingModeOf m ≠ "cancel".toList)
    (h2 : schedulingModeOf m = "direct".toList → m.exact_time = none) :
    run_scheduler_agent m env contacts0 =
      if (recipientsOf m).isEmpty then
        ⟨.noRecipients, [], [], [], learnContacts contacts0 m.attendees,
          env.calendar.isNone⟩
      else runProposal m env (learnContacts contacts0 m.attendees)
        (recipientsOf m) := by
  rw [run_scheduler_agent]
  rw [if_neg hmode]
  by_cases hre : (recipientsOf m).isEmpty
  · rw [if_pos hre]
    rw [if_pos (by simp [hre]; simpa using hmode)]
  · rw [if_neg hre, if_neg (by simp [hre])]
    by_cases hdm : schedulingModeOf m = "direct".toList
    · rw [if_pos hdm, h2 hdm]
    · rw [if_neg hdm]

/-- C2: a request classified direct whose `exact_time` is absent is
handled exactly as the same request classified proposal (the deliberate
`Direct -> Proposal` fallback of scheduler.py lines 1089-1093), and — with
resolvable recipients under auto-send — it generates candidate slots and
sends the proposal email rather than terminating with a fatal error. -/
theorem c2_direct_fallback (m : Meeting) (env : Env) (contacts0 : Contacts)
    (hmode : schedulingModeOf m = "direct".toList)
    (hex : m.exact_time = none) :
    run_scheduler_agent m env contacts0 =
      run_scheduler_agent {m with scheduling_mode := some ("proposal".toList)}
        env contacts0 ∧
    (recipientsOf m ≠ [] → env.autoSend = true →
      (run_scheduler_agent m env contacts0).outcome =
        .proposalDone (pick_candidate_slots (meetingDuration m) m.earliest_start
          m.latest_end (preferredOf m)
          (match env.calendar with | none => [] | some cal => cal.busy) 3) ∧
      (run_scheduler_agent m env contacts0).emails =
        [⟨recipientsOf m, m.subject⟩]) := by
  have hA := run_eq_proposal m env contacts0 (by rw [hmode]; decide)
    (fun _ => hex)
  have hB := run_eq_proposal {m with scheduling_mode := some ("proposal".toList)}
    env contacts0 (by simp [schedulingModeOf]) (by simp [schedulingModeOf])
  constructor
  · rw [hA, hB]
    simp [runProposal, meetingDuration, preferredOf, recipientsOf, learnContacts]
  · intro hr ha
    rw [hA, if_neg (by simp [hr])]
    simp [runProposal, ha, meetingDuration]

/-- Witness for C2: a concrete direct request without `exact_time` and
with one resolvable recipient is routed to the proposal flow and sends a
proposal email. -/
theorem c2_direct_fallback_witness :
    (run_scheduler_agent
        ⟨"Sync".toList, [⟨none, some ("a@b.c".toList)⟩], some 30,
          some ("direct".toList), none, 540, 6780, some [("morning".toList)], none⟩
        ⟨none, true, [], true, true, true, true, 0⟩ []).outcome =
      .proposalDone (pick_candidate_slots 30 540 6780 ["morning".toList] [] 3) := by
  have h := c2_direct_fallback
    ⟨"Sync".toList, [⟨none, some ("a@b.c".toList)⟩], some 30,
      some ("direct".toList), none, 540, 6780, some [("morning".toList)], none⟩
    ⟨none, true, [], true, true, true, true, 0⟩ [] rfl rfl
  exact ((h.2 (by decide) rfl).1)

/-- C3 counterexample: the code performs no post-parse schema validation
and has no `ClassificationSchemaError`. A parsed object whose mode is the
invalid tag `"frobnicate"` is not rejected: it is dispatched to the
proposal flow and a proposal email is sent. -/
theorem c3_validation_counterexample :
    (run_scheduler_agent
        ⟨"Sync".toList, [⟨none, some ("a@b.c".toList)⟩], some 30,
          some ("frobnicate".toList), none, 540, 6780, some [("morning".toList)],
          none⟩
        ⟨none, true, [], true, true, true, true, 0⟩ []).emails ≠ [] ∧
    (run_scheduler_agent
        ⟨"Sync".toList, [⟨none, some ("a@b.c".toList)⟩], some 30,
          some ("frobnicate".toList), none, 540, 6780, some [("morning".toList)],
          none⟩
        ⟨none, true, [], true, true, true, true, 0⟩ []).outcome =
      .proposalDone (pick_candidate_slots 30 540 6780 ["morning".toList] [] 3) := by
  constructor
  · decide
  · decide

/-- C3 (amended): after parsing, the engine performs no schema validation
and never raises a `ClassificationSchemaError`. Instead: a mode outside
the three tags is dispatched to the proposal flow exactly like a
proposal-mode request; mode `direct` without `exact_time` falls back to
the proposal flow; and mode `cancel` without a `cancel_criteria` object
proceeds with empty criteria. -/
theorem c3_no_schema_validation (m : Meeting) (env : Env) (contacts0 : Contacts) :
    (schedulingModeOf m ≠ "direct".toList → schedulingModeOf m ≠ "cancel".toList →
      run_scheduler_agent m env contacts0 =
        run_scheduler_agent {m with scheduling_mode := some ("proposal".toList)}
          env contacts0) ∧
    (schedulingModeOf m = "direct".toList → m.exact_time = none →
      run_scheduler_agent m env contacts0 =
        run_scheduler_agent {m with scheduling_mode := some ("proposal".toList)}
          env contacts0) ∧
    (schedulingModeOf m = "cancel".toList → m.cancel_criteria = none →
      run_scheduler_agent m env contacts0 =
        run_scheduler_agent {m with cancel_criteria := some emptyCriteria}
          env contacts0) := by
  have hB := run_eq_proposal {m with scheduling_mode := some ("proposal".toList)}
    env contacts0 (by simp [schedulingModeOf]) (by simp [schedulingModeOf])
  refine ⟨?_, ?_, ?_⟩
  · intro hd hc
    rw [run_eq_proposal m env contacts0 hc (fun h => absurd h hd), hB]
    simp [runProposal, meetingDuration, preferredOf, recipientsOf, learnContacts]
  · intro hd hex
    rw [run_eq_proposal m env contacts0 (by rw [hd]; decide) (fun _ => hex), hB]
    simp [runProposal, meetingDuration, preferredOf, recipientsOf, learnContacts]
  · intro hc hcrit
    rw [run_scheduler_agent, run_scheduler_agent]
    have hc2 : schedulingModeOf {m with cancel_criteria := some emptyCriteria}
        = "cancel".toList := by simpa [schedulingModeOf] using hc
    rw [if_pos hc, if_pos hc2]
    rw [runCancel, runCancel]
    simp [hcrit, learnContacts]

/-- Witness for C3 (amended) at a concrete input: a request with the
unknown mode `"frobnicate"` runs identically to the same request with
mode `"proposal"`. -/
theorem c3_no_schema_validation_witness :
    run_scheduler_agent
        ⟨"Sync".toList, [⟨none, some ("a@b.c".toList)⟩], some 30,
          some ("frobnicate".toList), none, 540, 6780, some [("morning".toList)],
          none⟩
        ⟨none, true, [], true, true, true, true, 0⟩ [] =
      run_scheduler_agent
        ⟨"Sync".toList, [⟨none, some ("a@b.c".toList)⟩], some 30,
          some ("proposal".toList), none, 540, 6780, some [("morning".toList)],
          none⟩
        ⟨none, true, [], true, true, true, true, 0⟩ [] := by
  exact (c3_no_schema_validation
    ⟨"Sync".toList, [⟨none, some ("a@b.c".toList)⟩], some 30,
      some ("frobnicate".toList), none, 540, 6780, some [("morning".toList)], none⟩
    ⟨none, true, [], true, true, true, true, 0⟩ []).1 (by decide) (by decide)

/-- C4: with no calendar provider, a cancel request terminates as the
reported provider-unavailable failure with no side effect; a direct
request (with its exact time) terminates as the provider-unavailable
failure or the no-recipients report, with no side effect; a proposal
request with resolvable recipients proceeds, generating slots against an
empty busy list, and the result carries the degraded-mode signal. -/
theorem c4_provider_unavailable (m : Meeting) (env : Env) (contacts0 : Contacts)
    (hcal : env.calendar = none) :
    (schedulingModeOf m = "cancel".toList →
      (run_scheduler_agent m env contacts0).outcome = .cancelProviderUnavailable ∧
      (run_scheduler_agent m env contacts0).created = [] ∧
      (run_scheduler_agent m env contacts0).deleted = [] ∧
      (run_scheduler_agent m env contacts0).emails = []) ∧
    (schedulingModeOf m = "direct".toList → ∀ t, m.exact_time = some t →
      ((run_scheduler_agent m env contacts0).outcome = .directProviderUnavailable ∨
        (run_scheduler_agent m env contacts0).outcome = .noRecipients) ∧
      (run_scheduler_agent m env contacts0).created = [] ∧
      (run_scheduler_agent m env contacts0).deleted = [] ∧
      (run_scheduler_agent m env contacts0).emails = []) ∧
    (schedulingModeOf m ≠ "direct".toList → schedulingModeOf m ≠ "cancel".toList →
      recipientsOf m ≠ [] → env.autoSend = true →
      (run_scheduler_agent m env contacts0).outcome =
        .proposalDone (pick_candidate_slots (meetingDuration m) m.earliest_start
          m.latest_end (preferredOf m) [] 3) ∧
      (run_scheduler_agent m env contacts0).degraded = true) := by
  refine ⟨?_, ?_, ?_⟩
  · intro hc
    rw [run_scheduler_agent, if_pos hc, runCancel, hcal]
    exact ⟨rfl, rfl, rfl, rfl⟩
  · intro hd t hex
    rw [run_scheduler_agent, if_neg (by rw [hd]; decide)]
    by_cases hre : (recipientsOf m).isEmpty
    · rw [if_pos (by simp [hre, hd])]
      exact ⟨Or.inr rfl, rfl, rfl, rfl⟩
    · rw [if_neg (by simp [hre]), if_pos hd, hex]
      simp [runDirect, hcal]
  · intro hd hc hr ha
    rw [run_eq_proposal m env contacts0 hc (fun h => absurd h hd)]
    rw [if_neg (by simp [hr])]
    simp [runProposal, hcal, ha]

/-- Witness for C4: a concrete cancel request with no calendar service
reports the provider failure without side effects, and a concrete
proposal request degrades to busy-free generation with the degraded
signal set. -/
theorem c4_provider_unavailable_witness :
    (run_scheduler_agent
        ⟨"Sync".toList, [], some 30, some ("cancel".toList), none, 540, 6780,
          none, some emptyCriteria⟩
        ⟨none, true, [], true, true, true, true, 0⟩ []).outcome =
      .cancelProviderUnavailable ∧
    (run_scheduler_agent
        ⟨"Sync".toList, [⟨none, some ("a@b.c".toList)⟩], some 30,
          some ("proposal".toList), none, 540, 6780, some [("morning".toList)],
          none⟩
        ⟨none, true, [], true, true, true, true, 0⟩ []).degraded = true := by
  constructor
  · exact ((c4_provider_unavailable
      ⟨"Sync".toList, [], some 30, some ("cancel".toList), none, 540, 6780,
        none, some emptyCriteria⟩
      ⟨none, true, [], true, true, true, true, 0⟩ [] rfl).1 (by decide)).1
  · exact ((c4_provider_unavailable
      ⟨"Sync".toList, [⟨none, some ("a@b.c".toList)⟩], some 30,
        some ("proposal".toList), none, 540, 6780, some [("morning".toList)], none⟩
      ⟨none, true, [], true, true, true, true, 0⟩ [] rfl).2.2
      (by decide) (by decide) (by decide) rfl).2

/-- C5: in the cancel flow with a reachable provider — zero matching
events terminates as the reported non-error "nothing to cancel" outcome
with no deletion and no email; exactly one matching event is
auto-selected without consulting the disambiguation input (the run is
unchanged under any selection script), after which (auto-send, deletion
succeeding) both the deletion and the cancellation email happen; and when
the matched event has no attendee with an email address, deletion happens,
the send step is skipped, and the outcome is the non-error
deleted-without-notification report, not a delivery failure. -/
theorem c5_cancel_flow (m : Meeting) (env : Env) (contacts0 : Contacts)
    (cal : CalendarService)
    (hmode : schedulingModeOf m = "cancel".toList)
    (hcal : env.calendar = some cal) :
    (search_events (m.cancel_criteria.getD emptyCriteria) cal.events = [] →
      (run_scheduler_agent m env contacts0).outcome = .cancelNoMatch ∧
      (run_scheduler_agent m env contacts0).created = [] ∧
      (run_scheduler_agent m env contacts0).deleted = [] ∧
      (run_scheduler_agent m env contacts0).emails = []) ∧
    (∀ e : EventSummary,
      search_events (m.cancel_criteria.getD emptyCriteria) cal.events = [e] →
      env.autoSend = true → cal.deleteOk = true →
      (∀ sels, run_scheduler_agent m {env with selections := sels} contacts0 =
        run_scheduler_agent m env contacts0) ∧
      (cancelRecipients e ≠ [] →
        (run_scheduler_agent m env contacts0).outcome = .cancelDone ∧
        (run_scheduler_agent m env contacts0).deleted = [e.id] ∧
        (run_scheduler_agent m env contacts0).emails =
          [⟨cancelRecipients e, "Cancelled: ".toList ++ e.summary⟩]) ∧
      (cancelRecipients e = [] →
        (run_scheduler_agent m env contacts0).outcome = .cancelDoneNoRecipients ∧
        (run_scheduler_agent m env contacts0).deleted = [e.id] ∧
        (run_scheduler_agent m env contacts0).emails = [])) := by
  constructor
  · intro hse
    rw [run_scheduler_agent, if_pos hmode]
    simp [runCancel, hcal, hse]
  · intro e hse ha hdel
    refine ⟨?_, ?_, ?_⟩
    · intro sels
      rw [run_scheduler_agent, run_scheduler_agent, if_pos hmode, if_pos hmode]
      simp only [runCancel, hcal, hse]
      rfl
    · intro hr
      rw [run_scheduler_agent, if_pos hmode]
      simp only [runCancel, hcal, hse, ha, hdel]
      simp [List.isEmpty_iff, hr]
    · intro hr
      rw [run_scheduler_agent, if_pos hmode]
      simp only [runCancel, hcal, hse, ha, hdel]
      simp [List.isEmpty_iff, hr]

/-- Witness for C5: one concrete matching event with an attendee email is
deleted and its attendees notified; one concrete matching event without
attendee emails is deleted with the send step skipped. -/
theorem c5_cancel_flow_witness :
    (run_scheduler_agent wCancelMeeting
        ⟨some ⟨[], [wEvent1], true, true⟩, true, [], true, true, true, true, 0⟩
        []).deleted = ["id1".toList] ∧
    (run_scheduler_agent wCancelMeeting
        ⟨some ⟨[], [wEvent2], true, true⟩, true, [], true, true, true, true, 0⟩
        []).outcome = .cancelDoneNoRecipients := by
  constructor
  · exact (((c5_cancel_flow wCancelMeeting
      ⟨some ⟨[], [wEvent1], true, true⟩, true, [], true, true, true, true, 0⟩ []
      ⟨[], [wEvent1], true, true⟩ rfl rfl).2 (toSummary wEvent1)
      (by decide) rfl rfl).2.1 (by decide)).2.1
  · exact (((c5_cancel_flow wCancelMeeting
      ⟨some ⟨[], [wEvent2], true, true⟩, true, [], true, true, true, true, 0⟩ []
      ⟨[], [wEvent2], true, true⟩ rfl rfl).2 (toSummary wEvent2)
      (by decide) rfl rfl).2.2 (by decide)).1

/-- With no attendee-name criterion the per-event filter reduces to the
subject-keyword condition, which reads only the event summary. -/
lemma eventMatches_of_no_name {crit : CancelCriteria}
    (h : crit.attendee_name.getD [] = []) (e : GEvent) :
    eventMatches crit e = subjectCond crit.subject_keywords e := by
  rw [eventMatches, h]
  simp [attendeeCond, lowerStr]

/-- C9 counterexample: with a keywords-only criteria, two event lists that
differ only in attendee fields do not produce identical results — the
returned entries carry the (differing) attendee fields. Which events are
selected is nevertheless independent of those fields (see the amended
theorem). -/
theorem c9_event_matcher_counterexample :
    search_events ⟨none, none, none, ["sync".toList]⟩
        [⟨"1".toList, "sync".toList, [], [],
          [⟨"a@x".toList, "Al".toList⟩], ⟨[], []⟩⟩] ≠
      search_events ⟨none, none, none, ["sync".toList]⟩
        [⟨"1".toList, "sync".toList, [], [],
          [⟨"b@y".toList, "Bo".toList⟩], ⟨[], []⟩⟩] := by
  decide

/-- C9 (amended): the Event Matcher with empty criteria returns every
input event, unchanged and in order (each result entry is the projection
of the corresponding input event and carries it as `raw_event`); and with
a keywords-only criteria, which events are selected is independent of the
attendee and organizer fields — the results of two event lists that agree
outside those fields are identical after erasing them. -/
theorem c9_event_matcher (events l1 l2 : List GEvent) (crit : CancelCriteria) :
    (crit.attendee_name.getD [] = [] → crit.subject_keywords = [] →
      search_events crit events = events.map toSummary ∧
      (search_events crit events).map EventSummary.raw = events) ∧
    (crit.attendee_name.getD [] = [] →
      l1.map stripAttendeeFields = l2.map stripAttendeeFields →
      (search_events crit l1).map (fun s => stripAttendeeFields s.raw) =
        (search_events crit l2).map (fun s => stripAttendeeFields s.raw)) := by
  constructor
  · intro hname hkw
    have hall : ∀ e ∈ events, eventMatches crit e = true := by
      intro e _
      rw [eventMatches_of_no_name hname, subjectCond, hkw]
      rfl
    have hfe : events.filter (eventMatches crit) = events :=
      List.filter_eq_self.mpr hall
    rw [search_events, hfe]
    refine ⟨rfl, ?_⟩
    rw [List.map_map]
    exact List.map_id events
  · intro hname
    induction l1 generalizing l2 with
    | nil =>
      intro heq
      have : l2 = [] := by
        cases l2
        · rfl
        · exact absurd heq (by simp)
      subst this
      rfl
    | cons a t ih =>
      intro heq
      cases l2 with
      | nil => exact absurd heq (by simp)
      | cons b t2 =>
        rw [List.map_cons, List.map_cons] at heq
        injection heq with hab ht
        have hsum : a.summary = b.summary := by
          have := congrArg GEvent.summary hab
          simpa [stripAttendeeFields] using this
        have hdec : eventMatches crit a = eventMatches crit b := by
          rw [eventMatches_of_no_name hname, eventMatches_of_no_name hname]
          rw [subjectCond, subjectCond, hsum]
        rw [search_events, search_events, List.filter_cons, List.filter_cons,
          ← hdec]
        by_cases hm : eventMatches crit a = true
        · simp only [hm, if_true]
          rw [List.map_cons, List.map_cons, List.map_cons]
          have hraw : stripAttendeeFields (toSummary a).raw
              = stripAttendeeFields (toSummary b).raw := hab
          rw [hraw]
          have := ih t2 ht
          rw [search_events, search_events] at this
          exact congrArg _ this
        · simp only [hm, if_false]
          have := ih t2 ht
          rw [search_events, search_events] at this
          exact this

/-- Witness for C9 (amended) at a concrete input: empty criteria return
the single input event unchanged, and a keywords-only criteria selects
identically across an attendee change. -/
theorem c9_event_matcher_witness :
    (search_events emptyCriteria [wEvent1]).map EventSummary.raw = [wEvent1] ∧
    (search_events ⟨none, none, none, ["sync".toList]⟩ [wEvent1]).map
        (fun s => stripAttendeeFields s.raw) =
      (search_events ⟨none, none, none, ["sync".toList]⟩
        [{wEvent1 with attendees := [⟨[], "Bob".toList⟩]}]).map
        (fun s => stripAttendeeFields s.raw) := by
  constructor
  · exact ((c9_event_matcher [wEvent1] [] [] emptyCriteria).1 rfl rfl).2
  · exact (c9_event_matcher [] [wEvent1] [{wEvent1 with attendees := [⟨[], "Bob".toList⟩]}]
      ⟨none, none, none, ["sync".toList]⟩).2 rfl (by decide)

/-! ## Properties of the JSON repair procedure -/

/-- A list is a Boolean prefix of itself followed by anything. -/
lemma isPrefixOf_self_append (l r : List Char) : l.isPrefixOf (l ++ r) = true := by
  induction l with
  | nil => simp [List.isPrefixOf]
  | cons c t ih => simp [List.isPrefixOf, ih]

/-- Splitting at the first separator occurrence when the text starts with
the separator. -/
lemma splitFirst_self_append {sep : List Char} (r : List Char) (hne : sep ≠ []) :
    splitFirst sep (sep ++ r) = some ([], r) := by
  cases sep with
  | nil => exact absurd rfl hne
  | cons s ss =>
    rw [List.cons_append, splitFirst]
    rw [if_pos (by rw [← List.cons_append]; exact isPrefixOf_self_append _ r)]
    rw [← List.cons_append, List.drop_left]

/-- Splitting at the first separator occurrence in `a ++ sep ++ b` when no
occurrence starts inside `a`. -/
lemma splitFirst_first_occurrence {sep : List Char} (b : List Char) (hne : sep ≠ []) :
    ∀ a : List Char,
      (∀ s ∈ a.tails, s ≠ [] → ¬(sep.isPrefixOf (s ++ sep ++ b) = true)) →
      splitFirst sep (a ++ sep ++ b) = some (a, b)
  | [], _ => by
    rw [List.nil_append]
    exact splitFirst_self_append b hne
  | c :: a2, H => by
    have hhd : ¬(sep.isPrefixOf ((c :: a2) ++ sep ++ b) = true) :=
      H (c :: a2) (by rw [List.mem_tails]) (by simp)
    rw [List.cons_append, List.cons_append, splitFirst]
    rw [if_neg (by rw [← List.cons_append, ← List.cons_append]; exact hhd)]
    have ih := splitFirst_first_occurrence b hne a2 (fun s hs hsne =>
      H s (by
        rw [List.mem_tails] at hs ⊢
        exact hs.trans (List.suffix_cons c a2)) hsne)
    rw [ih]

/-- Right trim distributes over an append whose left part ends in a
non-whitespace character. -/
lemma rTrim_append_stable (X Y : List Char)
    (hX : X.reverse.dropWhile wsChar = X.reverse) :
    rTrim (X ++ Y) = X ++ rTrim Y := by
  rw [rTrim, List.reverse_append, List.dropWhile_append]
  by_cases he : (Y.reverse.dropWhile wsChar).isEmpty
  · rw [if_pos he, hX, List.reverse_reverse]
    have : rTrim Y = [] := by
      rw [rTrim, List.isEmpty_iff.mp he]
      rfl
    rw [this, List.append_nil]
  · rw [if_neg he, List.reverse_append, List.reverse_reverse, rTrim]

/-- dropWhile is idempotent. -/
lemma dropWhile_dropWhile (p : Char → Bool) :
    ∀ l : List Char, (l.dropWhile p).dropWhile p = l.dropWhile p
  | [] => rfl
  | c :: t => by
    rw [List.dropWhile_cons]
    by_cases hc : p c
    · rw [if_pos hc]
      exact dropWhile_dropWhile p t
    · rw [if_neg hc, List.dropWhile_cons, if_neg hc]

/-- A list ending in the fence token is right-trim stable. -/
lemma stable_of_fence_last (A : List Char) :
    ((A ++ fence).reverse).dropWhile wsChar = (A ++ fence).reverse := by
  rw [List.reverse_append]
  have h0 : fence.reverse = [Char.ofNat 96, Char.ofNat 96, Char.ofNat 96] := by
    decide
  rw [h0, List.cons_append, List.dropWhile_cons,
    if_neg (by rw [show wsChar (Char.ofNat 96) = false from by decide]; simp)]

/-- A trimmed list stays unchanged when a newline is appended and the
result is right-trimmed again. -/
lemma rTrim_append_newline {bare : List Char} (hbr : rTrim bare = bare) :
    rTrim (bare ++ ['\n']) = bare := by
  have hb2 : bare.reverse.dropWhile wsChar = bare.reverse := by
    have := congrArg List.reverse hbr
    rwa [rTrim, List.reverse_reverse] at this
  rw [rTrim, List.reverse_append, List.reverse_cons, List.reverse_nil,
    List.nil_append, List.cons_append, List.nil_append, List.dropWhile_cons,
    if_pos (by decide), hb2, List.reverse_reverse]

/-- Brace-candidate extraction recovers an embedded brace-delimited block
when the prefix holds no opening brace and the suffix no closing brace. -/
lemma braceCandidate_embedded (pre core post : List Char)
    (hpre : braceOpen ∉ pre) (hpost : braceClose ∉ post) :
    braceCandidate (pre ++ (braceOpen :: core ++ [braceClose]) ++ post) =
      braceOpen :: core ++ [braceClose] := by
  show (((pre ++ (braceOpen :: core ++ [braceClose]) ++ post).dropWhile
      (fun c => c != braceOpen)).reverse.dropWhile
        (fun c => c != braceClose)).reverse = braceOpen :: core ++ [braceClose]
  have h1 : (pre ++ (braceOpen :: core ++ [braceClose]) ++ post).dropWhile
      (fun c => c != braceOpen) = braceOpen :: (core ++ [braceClose] ++ post) := by
    rw [List.append_assoc, List.dropWhile_append_of_pos (fun a ha => by
      simp only [bne_iff_ne, ne_eq, decide_eq_true_eq]
      exact fun hh => hpre (hh ▸ ha))]
    simp only [List.cons_append, List.append_assoc]
    rw [List.dropWhile_cons, if_neg (by simp)]
  rw [h1]
  have h2 : (braceOpen :: (core ++ [braceClose] ++ post)).reverse =
      post.reverse ++ (braceClose :: (braceOpen :: core).reverse) := by
    simp
  rw [h2]
  rw [List.dropWhile_append_of_pos (fun a ha => by
    simp only [bne_iff_ne, ne_eq, decide_eq_true_eq]
    exact fun hh => hpost (hh ▸ (List.mem_reverse.mp ha)))]
  rw [List.dropWhile_cons, if_neg (by simp)]
  simp

/-- Right trim is idempotent. -/
lemma rTrim_idem (l : List Char) : rTrim (rTrim l) = rTrim l := by
  rw [rTrim, rTrim, List.reverse_reverse, dropWhile_dropWhile]

/-- The fence-stripping phase recovers the bare JSON text from a response
that wraps it in a fenced block with the `json` language tag, with
arbitrary trailing commentary after the closing fence: the bare text must
be trimmed, start with an opening brace, and contain no earlier fence
occurrence before the closing one. -/
lemma cleanFenced_wrapped (bareTl post : List Char)
    (hbr : rTrim (braceOpen :: bareTl) = braceOpen :: bareTl)
    (hnof : ∀ s ∈ ((braceOpen :: bareTl) ++ ['\n']).tails, s ≠ [] →
      ¬(fence.isPrefixOf (s ++ fence ++ rTrim post) = true)) :
    cleanFenced (fence ++ ('j' :: 's' :: 'o' :: 'n' :: '\n' ::
        ((braceOpen :: bareTl) ++ '\n' :: (fence ++ post)))) =
      braceOpen :: bareTl := by
  have hf : fence = [Char.ofNat 96, Char.ofNat 96, Char.ofNat 96] := by decide
  have hfne : fence ≠ [] := by decide
  have hrT := rTrim_idem post
  -- the whole text equals X ++ post with X ending in the closing fence
  have hWX : fence ++ ('j' :: 's' :: 'o' :: 'n' :: '\n' ::
      ((braceOpen :: bareTl) ++ '\n' :: (fence ++ post))) =
      ((fence ++ ('j' :: 's' :: 'o' :: 'n' :: '\n' ::
        ((braceOpen :: bareTl) ++ ['\n']))) ++ fence) ++ post := by
    simp [List.append_assoc]
  have hstable := stable_of_fence_last
    (fence ++ ('j' :: 's' :: 'o' :: 'n' :: '\n' :: ((braceOpen :: bareTl) ++ ['\n'])))
  -- step 1: strip of the whole text
  have h_t1 : sTrim (fence ++ ('j' :: 's' :: 'o' :: 'n' :: '\n' ::
      ((braceOpen :: bareTl) ++ '\n' :: (fence ++ post)))) =
      fence ++ ('j' :: 's' :: 'o' :: 'n' :: '\n' ::
        ((braceOpen :: bareTl) ++ '\n' :: (fence ++ rTrim post))) := by
    rw [sTrim, hWX]
    have hl : lTrim ((((fence ++ ('j' :: 's' :: 'o' :: 'n' :: '\n' ::
        ((braceOpen :: bareTl) ++ ['\n']))) ++ fence) ++ post)) =
        (((fence ++ ('j' :: 's' :: 'o' :: 'n' :: '\n' ::
          ((braceOpen :: bareTl) ++ ['\n']))) ++ fence) ++ post) := by
      rw [lTrim, hf]
      simp only [List.cons_append, List.append_assoc]
      rw [List.dropWhile_cons,
        if_neg (by rw [show wsChar (Char.ofNat 96) = false from by decide]; simp)]
    rw [hl, rTrim_append_stable _ _ hstable]
    simp [List.append_assoc]
  -- step 2: the stripped text starts with the fence
  have h_pref : fence.isPrefixOf (fence ++ ('j' :: 's' :: 'o' :: 'n' :: '\n' ::
      ((braceOpen :: bareTl) ++ '\n' :: (fence ++ rTrim post)))) = true :=
    isPrefixOf_self_append _ _
  -- step 3: dropping the opening fence
  have h_split1 : splitFirst fence (fence ++ ('j' :: 's' :: 'o' :: 'n' :: '\n' ::
      ((braceOpen :: bareTl) ++ '\n' :: (fence ++ rTrim post)))) =
      some ([], 'j' :: 's' :: 'o' :: 'n' :: '\n' ::
        ((braceOpen :: bareTl) ++ '\n' :: (fence ++ rTrim post))) :=
    splitFirst_self_append _ hfne
  -- step 4: language-tag stripping and re-trim
  have h_json : ('j' :: 's' :: 'o' :: 'n' :: '\n' ::
      ((braceOpen :: bareTl) ++ '\n' :: (fence ++ rTrim post))).dropWhile jsonChar =
      '\n' :: ((braceOpen :: bareTl) ++ '\n' :: (fence ++ rTrim post)) := by
    simp only [List.dropWhile_cons,
      show jsonChar 'j' = true from by decide,
      show jsonChar 's' = true from by decide,
      show jsonChar 'o' = true from by decide,
      show jsonChar 'n' = true from by decide,
      show jsonChar '\n' = false from by decide,
      if_true, if_false, Bool.false_eq_true, reduceIte]
  have h_python : ('\n' :: ((braceOpen :: bareTl) ++ '\n' ::
      (fence ++ rTrim post))).dropWhile pythonChar =
      '\n' :: ((braceOpen :: bareTl) ++ '\n' :: (fence ++ rTrim post)) := by
    rw [List.dropWhile_cons,
      if_neg (by rw [show pythonChar '\n' = false from by decide]; simp)]
  have h_lt : lTrim ('\n' :: ((braceOpen :: bareTl) ++ '\n' ::
      (fence ++ rTrim post))) =
      (braceOpen :: bareTl) ++ '\n' :: (fence ++ rTrim post) := by
    rw [lTrim, List.dropWhile_cons,
      if_pos (by rw [show wsChar '\n' = true from by decide])]
    simp only [List.cons_append]
    rw [List.dropWhile_cons,
      if_neg (by rw [show wsChar braceOpen = false from by decide]; simp)]
  have h_st3 : sTrim ((braceOpen :: bareTl) ++ '\n' :: (fence ++ rTrim post)) =
      (braceOpen :: bareTl) ++ '\n' :: (fence ++ rTrim post) := by
    rw [sTrim]
    have hl2 : lTrim ((braceOpen :: bareTl) ++ '\n' :: (fence ++ rTrim post)) =
        (braceOpen :: bareTl) ++ '\n' :: (fence ++ rTrim post) := by
      rw [lTrim]
      simp only [List.cons_append]
      rw [List.dropWhile_cons,
        if_neg (by rw [show wsChar braceOpen = false from by decide]; simp)]
    rw [hl2]
    have hsh : (braceOpen :: bareTl) ++ '\n' :: (fence ++ rTrim post) =
        (((braceOpen :: bareTl) ++ ['\n']) ++ fence) ++ rTrim post := by
      simp [List.append_assoc]
    rw [hsh, rTrim_append_stable _ _ (stable_of_fence_last _), hrT]
  -- step 5: cutting at the closing fence
  have h_split2 : splitFirst fence ((((braceOpen :: bareTl) ++ ['\n']) ++ fence)
      ++ rTrim post) = some ((braceOpen :: bareTl) ++ ['\n'], rTrim post) :=
    splitFirst_first_occurrence (rTrim post) hfne _ hnof
  -- step 6: final strip of the fenced body
  have h_final : sTrim ((braceOpen :: bareTl) ++ ['\n']) = braceOpen :: bareTl := by
    rw [sTrim]
    have hl3 : lTrim ((braceOpen :: bareTl) ++ ['\n']) =
        (braceOpen :: bareTl) ++ ['\n'] := by
      rw [lTrim]
      simp only [List.cons_append]
      rw [List.dropWhile_cons,
        if_neg (by rw [show wsChar braceOpen = false from by decide]; simp)]
    rw [hl3]
    exact rTrim_append_newline hbr
  -- assemble
  rw [cleanFenced]
  simp only [h_t1, h_pref, if_true, h_split1, h_json, h_python, h_lt, h_st3]
  have hsh2 : (braceOpen :: bareTl) ++ '\n' :: (fence ++ rTrim post) =
      (((braceOpen :: bareTl) ++ ['\n']) ++ fence) ++ rTrim post := by
    simp [List.append_assoc]
  rw [hsh2, h_split2]
  exact h_final

/-- A list ending in a non-whitespace character is right-trim stable. -/
lemma stable_of_last_not_ws (A : List Char) (c : Char) (hc : wsChar c = false) :
    ((A ++ [c]).reverse).dropWhile wsChar = (A ++ [c]).reverse := by
  rw [List.reverse_append, List.reverse_cons, List.reverse_nil,
    List.nil_append, List.cons_append, List.nil_append, List.dropWhile_cons,
    if_neg (by rw [hc]; simp)]

/-- C8: the classification-response repair procedure of
`extract_json_from_text`, stated for an arbitrary JSON parser `loads`
(parse failure is `none`). (i) A response consisting of the bare JSON
object wrapped in a fenced block with the `json` language tag, followed by
arbitrary trailing commentary, parses to the same object as the bare JSON.
(ii) A response with leading commentary (not itself starting a fence,
holding no opening brace, and making the whole text unparseable) and any
trailing commentary free of closing braces around a brace-delimited JSON
object parses to the same object as the bare JSON, through the
first-brace-to-last-brace extraction. (iii) A text on which the cleaned
parse fails and whose brace extraction is empty or unparseable makes the
call fail (the `ClassificationFormatError` of the spec). -/
theorem c8_json_repair :
    (∀ (α : Type) (loads : List Char → Option α) (J : α) (bareTl post : List Char),
      loads (braceOpen :: bareTl) = some J →
      rTrim (braceOpen :: bareTl) = braceOpen :: bareTl →
      (∀ s ∈ ((braceOpen :: bareTl) ++ ['\n']).tails, s ≠ [] →
        ¬(fence.isPrefixOf (s ++ fence ++ rTrim post) = true)) →
      extract_json_from_text loads (fence ++ ('j' :: 's' :: 'o' :: 'n' :: '\n' ::
        ((braceOpen :: bareTl) ++ '\n' :: (fence ++ post)))) = some J) ∧
    (∀ (α : Type) (loads : List Char → Option α) (J : α)
        (p : Char) (preTl core post : List Char),
      loads ((p :: preTl) ++ (braceOpen :: core ++ [braceClose]) ++ post) = none →
      loads (braceOpen :: core ++ [braceClose]) = some J →
      wsChar p = false →
      braceOpen ∉ p :: preTl →
      braceClose ∉ post →
      rTrim post = post →
      fence.isPrefixOf ((p :: preTl) ++ (braceOpen :: core ++ [braceClose]) ++ post)
        = false →
      extract_json_from_text loads
        ((p :: preTl) ++ (braceOpen :: core ++ [braceClose]) ++ post) = some J) ∧
    (∀ (α : Type) (loads : List Char → Option α) (text : List Char),
      loads (cleanFenced text) = none →
      (braceCandidate (cleanFenced text) = [] ∨
        loads (braceCandidate (cleanFenced text)) = none) →
      extract_json_from_text loads text = none) := by
  refine ⟨?_, ?_, ?_⟩
  · intro α loads J bareTl post hload hbr hnof
    rw [extract_json_from_text, cleanFenced_wrapped bareTl post hbr hnof, hload]
  · intro α loads J p preTl core post hnone hload hp hpre hpost hrp hnf
    have hclean : cleanFenced ((p :: preTl) ++ (braceOpen :: core ++ [braceClose])
        ++ post) = (p :: preTl) ++ (braceOpen :: core ++ [braceClose]) ++ post := by
      have ht1 : sTrim ((p :: preTl) ++ (braceOpen :: core ++ [braceClose]) ++ post)
          = (p :: preTl) ++ (braceOpen :: core ++ [braceClose]) ++ post := by
        rw [sTrim]
        have hl : lTrim ((p :: preTl) ++ (braceOpen :: core ++ [braceClose]) ++ post)
            = (p :: preTl) ++ (braceOpen :: core ++ [braceClose]) ++ post := by
          rw [lTrim]
          simp only [List.cons_append, List.append_assoc]
          rw [List.dropWhile_cons, if_neg (by rw [hp]; simp)]
        rw [hl]
        have hsh : (p :: preTl) ++ (braceOpen :: core ++ [braceClose]) ++ post =
            (((p :: preTl) ++ (braceOpen :: core)) ++ [braceClose]) ++ post := by
          simp [List.append_assoc]
        rw [hsh, rTrim_append_stable _ _
          (stable_of_last_not_ws _ braceClose (by decide)), hrp]
      rw [cleanFenced, ht1, if_neg (by rw [hnf]; simp)]
    rw [extract_json_from_text, hclean, hnone]
    rw [braceCandidate_embedded _ _ _ hpre hpost]
    rw [if_neg (by simp)]
    exact hload
  · intro α loads text hnone hcand
    rw [extract_json_from_text, hnone]
    rcases hcand with hc | hc
    · rw [if_pos (by rw [hc]; rfl)]
    · by_cases he : (braceCandidate (cleanFenced text)).isEmpty
      · rw [if_pos he]
      · rw [if_neg he]
        exact hc

/-- Witness for C8 at concrete inputs: a fenced, tagged response with
trailing commentary parses to the bare object; leading commentary plus a
brace-delimited object recovers the same object; commentary with no JSON
fails. -/
theorem c8_json_repair_witness :
    extract_json_from_text wLoads (fence ++ ('j' :: 's' :: 'o' :: 'n' :: '\n' ::
      ((braceOpen :: ("\"a\":1\x7d").toList) ++ '\n' ::
        (fence ++ (" thanks").toList))))
      = some 1 ∧
    extract_json_from_text wLoads
      (('H' :: ("ere: ").toList) ++
        (braceOpen :: ("\"a\":1").toList ++ [braceClose]) ++ (" bye").toList)
      = some 1 ∧
    extract_json_from_text wLoads (("no json here").toList) = none := by
  refine ⟨?_, ?_, ?_⟩
  · exact c8_json_repair.1 Nat wLoads 1 (("\"a\":1\x7d").toList)
      ((" thanks").toList) (by decide) (by decide) (by decide)
  · exact c8_json_repair.2.1 Nat wLoads 1 'H' (("ere: ").toList)
      (("\"a\":1").toList) ((" bye").toList) (by decide) (by decide)
      (by decide) (by decide) (by decide) (by decide) (by decide)
  · exact c8_json_repair.2.2 Nat wLoads (("no json here").toList) (by decide)
      (by decide)

end Scheduler
